import Mathlib

/-!
Verification of the event-driven pipeline core of project-samarth-events:
the event bus (`src/backend/app/event_bus.py`), the stage dispatch contract
(`src/backend/app/pipeline/base_stage.py`), the concrete stage transforms
(`parse_stage.py`, `data_stage.py`, `analysis_stage.py`) and the executor's
result/error handlers (`src/backend/app/query_executor.py`), shallowly
embedded as executable Lean definitions.
-/

namespace SamarthEvents

/-- Opaque runtime values flowing through the pipeline (Python objects):
strings, numbers, `None`, and string-keyed dictionaries modelled as
insertion-ordered association lists. -/
inductive Value where
  | str : String → Value
  | nat : Nat → Value
  | null : Value
  | dict : List (String × Value) → Value

/-- First-match lookup on an insertion-ordered dictionary (`d[k]` / `d.get(k)`). -/
def dictGet : List (String × Value) → String → Option Value
  | [], _ => Option.none
  | (k', v) :: rest, k => if k' = k then Option.some v else dictGet rest k

/-- Python dict update `{**d, k: v}`: if `k` is already present (a real dict
holds it at most once) its value is overwritten in place, otherwise the pair
is appended at the end. -/
def dictInsert : List (String × Value) → String → Value → List (String × Value)
  | [], k, v => [(k, v)]
  | (k', v') :: rest, k, v =>
    if k' = k then (k, v) :: rest else (k', v') :: dictInsert rest k v

/-- An event on the bus (`Event` dataclass in `event_bus.py`): topic, payload,
creation timestamp (here a logical clock tick) and metadata dictionary. -/
structure Event where
  topic : String
  data : Value
  timestamp : Nat
  metadata : List (String × Value)

/-- Outcome of an asyncio future once resolved: `set_result`, `set_exception`,
or cancellation (all make `done()` true). -/
inductive FutureOutcome where
  | result : Value → FutureOutcome
  | exn : Value → FutureOutcome
  | cancelled : FutureOutcome

/-- The executor's pending-result slot (`self.result_future`): `outcome = none`
means the future is pending (`done()` is false). -/
structure Future where
  outcome : Option FutureOutcome

/-- A stage as wired into the bus (`PipelineStage` subclasses): class name,
input topic, output topic and the `process(data, metadata)` transform, which
either returns a payload or raises (modelled as `Except` with the `str(e)`
message). -/
structure StageSpec where
  name : String
  inputTopic : String
  outputTopic : String
  processFn : Value → List (String × Value) → Except String Value

/-- The handlers that can be subscribed to the bus in this system: plain test
handlers that record their invocation and optionally raise (used to observe
dispatch order), stage dispatchers (`PipelineStage._handle_event`), and the
executor's two handlers (`_handle_result` / `_handle_error`). -/
inductive Handler where
  | pureLog : Nat → Option String → Handler
  | stage : StageSpec → Handler
  | execResult : Handler
  | execError : Handler

/-- The mutable state shared by the bus and the executor: the subscriber
registry (topic to ordered handler list), the bounded event history with its
capacity (`_max_history = 100`), a logical clock for timestamps, the
invocation log written by `pureLog` test handlers, and the executor's
pending-result slot. -/
structure SystemState where
  subscribers : List (String × List Handler)
  eventHistory : List Event
  maxHistory : Nat
  clock : Nat
  log : List Nat
  resultFuture : Option Future

/-- The freshly constructed system: empty registry, empty history, capacity
100 (`EventBus.__init__`), and no pending-result slot yet
(`self.result_future = None` in `QueryExecutor.__init__`). -/
def initState : SystemState :=
  { subscribers := [], eventHistory := [], maxHistory := 100, clock := 0,
    log := [], resultFuture := Option.none }

/-- Ordered lookup of a topic's subscriber list. -/
def lookupSubs : List (String × List Handler) → String → Option (List Handler)
  | [], _ => Option.none
  | (t', hs) :: rest, t => if t' = t then Option.some hs else lookupSubs rest t

/-- Append a handler to a topic's subscriber list, creating the list on first
subscription (`EventBus.subscribe`). -/
def subAppend : List (String × List Handler) → String → Handler →
    List (String × List Handler)
  | [], t, h => [(t, [h])]
  | (t', hs) :: rest, t, h =>
    if t' = t then (t', hs ++ [h]) :: rest else (t', hs) :: subAppend rest t h

/-- `EventBus.subscribe(topic, handler)`. -/
def subscribe (st : SystemState) (topic : String) (h : Handler) : SystemState :=
  { st with subscribers := subAppend st.subscribers topic h }

/-- `EventBus.clear_subscribers()`: empties the whole registry. -/
def clearSubscribers (st : SystemState) : SystemState :=
  { st with subscribers := [] }

/-- Result of a publish/dispatch: normal return, a propagated Python
exception (with its message), or exhaustion of the recursion fuel (a modelling
artefact: any terminating run is reproduced with enough fuel). -/
inductive Outcome where
  | ok : Outcome
  | err : String → Outcome
  | fuelOut : Outcome
deriving DecidableEq

/-- Shorthand for the type of the recursive publish operation handed down to
handlers (one level less fuel). -/
abbrev Pub := SystemState → String → Value → Option (List (String × Value)) →
    SystemState × Outcome

/-- `PipelineStage._handle_event(event)`: run `process`; on success publish the
output topic with metadata `{**event.metadata, "processed_by": name}`; if
anything in the `try` block raises (the `process` call, or a nested publish
propagating a deeper failure), publish one `pipeline.error` event with payload
`{"error": str(e), "stage": name}` and the incoming metadata unchanged, then
re-raise. Exceptions keep the state mutations performed before the raise. -/
def handleEvent (pub : Pub) (s : StageSpec) (ev : Event) (st : SystemState) :
    SystemState × Outcome :=
  match s.processFn ev.data ev.metadata with
  | Except.ok result =>
    match pub st s.outputTopic result
        (Option.some (dictInsert ev.metadata "processed_by" (.str s.name))) with
    | (st', Outcome.ok) => (st', Outcome.ok)
    | (st', Outcome.err e) =>
      match pub st' "pipeline.error"
          (.dict [("error", .str e), ("stage", .str s.name)])
          (Option.some ev.metadata) with
      | (st'', Outcome.ok) => (st'', Outcome.err e)
      | (st'', o) => (st'', o)
    | (st', Outcome.fuelOut) => (st', Outcome.fuelOut)
  | Except.error e =>
    match pub st "pipeline.error"
        (.dict [("error", .str e), ("stage", .str s.name)])
        (Option.some ev.metadata) with
    | (st', Outcome.ok) => (st', Outcome.err e)
    | (st', o) => (st', o)

/-- Run one subscribed handler on an event. `pureLog i r` records `i` in the
log and raises `r` if set; `stage s` is `PipelineStage._handle_event`;
`execResult` is `QueryExecutor._handle_result` (resolve the slot only if it
exists and is not yet done); `execError` is `QueryExecutor._handle_error`
(fail the slot with `event.data.get("error", "Unknown error")` under the same
guard). -/
def runHandler (pub : Pub) (h : Handler) (ev : Event) (st : SystemState) :
    SystemState × Outcome :=
  match h with
  | Handler.pureLog i r =>
    ({ st with log := st.log ++ [i] },
     match r with
     | Option.none => Outcome.ok
     | Option.some e => Outcome.err e)
  | Handler.stage s => handleEvent pub s ev st
  | Handler.execResult =>
    match st.resultFuture with
    | Option.some f =>
      match f.outcome with
      | Option.none =>
        ({ st with resultFuture :=
            Option.some ⟨Option.some (FutureOutcome.result ev.data)⟩ },
         Outcome.ok)
      | Option.some _ => (st, Outcome.ok)
    | Option.none => (st, Outcome.ok)
  | Handler.execError =>
    match st.resultFuture with
    | Option.some f =>
      match f.outcome with
      | Option.none =>
        match ev.data with
        | Value.dict d =>
          ({ st with resultFuture :=
              Option.some ⟨Option.some (FutureOutcome.exn
                ((dictGet d "error").getD (.str "Unknown error")))⟩ },
           Outcome.ok)
        | _ => (st, Outcome.err "AttributeError")
      | Option.some _ => (st, Outcome.ok)
    | Option.none => (st, Outcome.ok)

/-- The `for handler in self._subscribers[topic]` loop of `EventBus.publish`:
handlers run in registration order; a raised error stops the loop and
propagates (the `except` clause logs and re-raises). -/
def dispatchList (pub : Pub) : List Handler → Event → SystemState →
    SystemState × Outcome
  | [], _, st => (st, Outcome.ok)
  | h :: hs, ev, st =>
    match runHandler pub h ev st with
    | (st', Outcome.ok) => dispatchList pub hs ev st'
    | (st', o) => (st', o)

/-- `EventBus.publish(topic, data, metadata)`, indexed by recursion fuel:
construct the event (`metadata or {}`, timestamp from the clock), append it to
the history evicting the oldest entry when capacity is exceeded
(`if len > self._max_history: pop(0)`), then dispatch synchronously to the
topic's subscribers in order; no subscribers is a non-error. -/
def publishFuel : Nat → Pub
  | 0, st, _, _, _ => (st, Outcome.fuelOut)
  | fuel + 1, st, topic, data, metadata =>
    let ev : Event :=
      { topic := topic, data := data, timestamp := st.clock,
        metadata := metadata.getD [] }
    let h := st.eventHistory ++ [ev]
    let h := if h.length > st.maxHistory then h.drop 1 else h
    let st' := { st with clock := st.clock + 1, eventHistory := h }
    match lookupSubs st'.subscribers topic with
    | Option.some hs => dispatchList (publishFuel fuel) hs ev st'
    | Option.none => (st', Outcome.ok)

/-- The snapshot computed by `EventBus.get_event_history(topic)`: a filtered
new list when `topic` is truthy (a non-empty string), the full history
otherwise (`None` or the empty string are both falsy in `if topic:`). -/
def historySnapshot (hist : List Event) (topic : Option String) : List Event :=
  match topic with
  | Option.some t => if t ≠ "" then hist.filter (fun e => e.topic = t) else hist
  | Option.none => hist

/-- `EventBus.get_event_history` at the value level (the list the caller
receives). -/
def getEventHistory (st : SystemState) (topic : Option String) : List Event :=
  historySnapshot st.eventHistory topic

/-- `ParseStage.process(data, metadata)`: read `data["question"]` (KeyError if
absent), call the injected parser collaborator, and return a fresh dictionary
`{"question": question, "intent": parsed.intent, "params": parsed.params}`.
The parser is a constructor argument (`parser_fn`), abstracted as a function
returning `(intent, params)` or raising. -/
def parseProcess (parserFn : Value → Except String (String × Value))
    (data : Value) : Except String Value :=
  match data with
  | Value.dict d =>
    match dictGet d "question" with
    | Option.some q =>
      match parserFn q with
      | Except.ok (intent, params) =>
        Except.ok (Value.dict
          [("question", q), ("intent", .str intent), ("params", params)])
      | Except.error e => Except.error e
    | Option.none => Except.error "KeyError: question"
  | _ => Except.error "TypeError"

/-- `DataLoadStage.process(data, metadata)`: load the two datasets through the
data-manager collaborator (a constructor argument, abstracted as a function
that returns the data or raises), then return
`{**data, "datasets": {"agriculture": ..., "rainfall": ...}}`. -/
def dataProcess (loadDataset : String → Except String Value)
    (data : Value) : Except String Value :=
  match loadDataset "agriculture" with
  | Except.error e => Except.error e
  | Except.ok ag =>
    match loadDataset "rainfall" with
    | Except.error e => Except.error e
    | Except.ok rf =>
      match data with
      | Value.dict d =>
        Except.ok (Value.dict (dictInsert d "datasets"
          (Value.dict [("agriculture", ag), ("rainfall", rf)])))
      | _ => Except.error "TypeError"

/-- The four intents `AnalysisStage.process` routes on. -/
def knownIntents : List String :=
  ["compare_rainfall_and_crops", "district_extremes",
   "production_trend_with_climate", "policy_arguments"]

/-- `AnalysisStage.process(data, metadata)`: read `data["intent"]`,
`data["params"]`, `data["datasets"]` (KeyError if absent), route to the
intent's analysis method (the dataframe internals are abstracted as
`analyzeFn`, which may raise), raise `ValueError` on an unknown intent, and on
success return `{**data, "results": results}`. -/
def analysisProcess (analyzeFn : String → Value → Value → Except String Value)
    (data : Value) : Except String Value :=
  match data with
  | Value.dict d =>
    match dictGet d "intent" with
    | Option.none => Except.error "KeyError: intent"
    | Option.some intent =>
      match dictGet d "params" with
      | Option.none => Except.error "KeyError: params"
      | Option.some params =>
        match dictGet d "datasets" with
        | Option.none => Except.error "KeyError: datasets"
        | Option.some datasets =>
          match intent with
          | Value.str s =>
            if knownIntents.contains s then
              match analyzeFn s params datasets with
              | Except.ok results =>
                Except.ok (Value.dict (dictInsert d "results" results))
              | Except.error e => Except.error e
            else Except.error ("Unknown intent: " ++ s)
          | _ => Except.error "Unknown intent"
  | _ => Except.error "TypeError"

/-- The keys of a payload dictionary. -/
def dictKeys (d : List (String × Value)) : List String := d.map Prod.fst

/-- A heap of list cells, to model Python list identity for the aliasing
property of `get_event_history`: the bus's `_event_history` lives in one cell,
and each call returns a freshly allocated cell. -/
structure ListStore where
  cells : List (List Event)

/-- Read the list held by a cell. -/
def storeRead (s : ListStore) (r : Nat) : List Event := (s.cells.getD r [])

/-- In-place mutation of the list held by a cell. -/
def storeWrite (s : ListStore) (r : Nat) (v : List Event) : ListStore :=
  ⟨s.cells.set r v⟩

/-- Allocate a fresh cell holding `v`, returning its reference. -/
def storeAlloc (s : ListStore) (v : List Event) : ListStore × Nat :=
  (⟨s.cells ++ [v]⟩, s.cells.length)

/-- `EventBus.get_event_history` at the heap level: both branches build a new
list (`[e for e in ...]` or `.copy()`) and return a reference to it, never to
the live `_event_history` cell at `histRef`. -/
def getEventHistoryRef (s : ListStore) (histRef : Nat)
    (topic : Option String) : ListStore × Nat :=
  storeAlloc s (historySnapshot (storeRead s histRef) topic)

/-- Event construction helper (the `Event(topic=..., data=..., metadata=...)`
call inside `publish`). -/
def mkEvent (topic : String) (d : Value) (ts : Nat)
    (md : List (String × Value)) : Event :=
  { topic := topic, data := d, timestamp := ts, metadata := md }

/-- Publish `n` events carrying payloads `1 .. n` on topic `"t"` (the setup of
the spec's history-bound test). -/
def pubSeq (st : SystemState) : Nat → SystemState
  | 0 => st
  | n + 1 => (publishFuel 1 (pubSeq st n) "t" (.nat (n + 1)) Option.none).1

/-- The ids of the `pureLog` handlers a single dispatch invokes: every handler
up to and including the first one that raises. -/
def invokedIds : List (Nat × Option String) → List Nat
  | [] => []
  | (i, Option.none) :: rest => i :: invokedIds rest
  | (i, Option.some _) :: _ => [i]

/-- The outcome a single dispatch over `pureLog` handlers produces: the first
raised error, or normal return when none raises. -/
def firstOutcome : List (Nat × Option String) → Outcome
  | [] => Outcome.ok
  | (_, Option.none) :: rest => firstOutcome rest
  | (_, Option.some e) :: _ => Outcome.err e

/-- Subscribe a list of `pureLog` handlers to one topic, in list order. -/
def subscribeAll (st : SystemState) (topic : String)
    (L : List (Nat × Option String)) : SystemState :=
  L.foldl (fun s p => subscribe s topic (Handler.pureLog p.1 p.2)) st

/-- The history-capacity invariant of a bus with capacity `M`. -/
def capOK (M : Nat) (st : SystemState) : Prop :=
  st.maxHistory = M ∧ st.eventHistory.length ≤ M

/-- A stage whose `process` raises with message `msg` on every input. -/
def failingStage (name inT outT msg : String) : StageSpec :=
  { name := name, inputTopic := inT, outputTopic := outT,
    processFn := fun _ _ => Except.error msg }

/-- A stage whose `process` succeeds, returning `pf data metadata`. -/
def okStage (name inT outT : String)
    (pf : Value → List (String × Value) → Value) : StageSpec :=
  { name := name, inputTopic := inT, outputTopic := outT,
    processFn := fun a b => Except.ok (pf a b) }

/-- A one-cell heap whose only list holds a single event on topic `"a"`. -/
def exStore : ListStore :=
  ⟨[[{ topic := "a", data := Value.null, timestamp := 0, metadata := [] }]]⟩

theorem dictGet_dictInsert_same (d : List (String × Value)) (k : String)
    (v : Value) : dictGet (dictInsert d k v) k = Option.some v := by
  induction d with
  | nil => simp [dictInsert, dictGet]
  | cons p rest ih =>
    obtain ⟨a, w⟩ := p
    by_cases hak : a = k
    · simp [dictInsert, hak, dictGet]
    · simp [dictInsert, hak, dictGet, ih]

theorem dictGet_dictInsert_ne (d : List (String × Value)) (k : String)
    (v : Value) (q : String) (h : q ≠ k) :
    dictGet (dictInsert d k v) q = dictGet d q := by
  induction d with
  | nil => simp [dictInsert, dictGet, Ne.symm h]
  | cons p rest ih =>
    obtain ⟨a, w⟩ := p
    by_cases hak : a = k
    · subst hak
      simp [dictInsert, dictGet, Ne.symm h]
    · simp [dictInsert, hak, dictGet, ih]

theorem dictKeys_dictInsert_mem (d : List (String × Value)) (k : String)
    (v : Value) (q : String) (h : q ∈ dictKeys d) :
    q ∈ dictKeys (dictInsert d k v) := by
  induction d with
  | nil => simp [dictKeys] at h
  | cons p rest ih =>
    obtain ⟨a, w⟩ := p
    by_cases hak : a = k
    · subst hak
      simpa [dictKeys, dictInsert] using h
    · simp [dictKeys, dictInsert, hak] at h ⊢
      rcases h with h | h
      · exact Or.inl h
      · exact Or.inr (by simpa [dictKeys] using ih (by simpa [dictKeys] using h))

theorem dispatchList_pureLog (pub : Pub) (L : List (Nat × Option String))
    (ev : Event) (st : SystemState) :
    dispatchList pub (L.map fun p => Handler.pureLog p.1 p.2) ev st =
      ({ st with log := st.log ++ invokedIds L }, firstOutcome L) := by
  induction L generalizing st with
  | nil => simp [dispatchList, invokedIds, firstOutcome]
  | cons p rest ih =>
    obtain ⟨i, r⟩ := p
    cases r with
    | none =>
      simp only [List.map_cons, dispatchList, runHandler, invokedIds,
        firstOutcome, ih]
      simp
    | some e =>
      simp [dispatchList, runHandler, invokedIds, firstOutcome]

theorem subscribeAll_subscribers (t : String) (L : List (Nat × Option String)) :
    ∀ (st : SystemState) (hs : List Handler),
    st.subscribers = [(t, hs)] →
    (subscribeAll st t L).subscribers =
      [(t, hs ++ L.map fun p => Handler.pureLog p.1 p.2)] := by
  induction L with
  | nil => intro st hs hsub; simpa [subscribeAll]
  | cons p rest ih =>
    intro st hs hsub
    have hstep : (subscribe st t (Handler.pureLog p.1 p.2)).subscribers =
        [(t, hs ++ [Handler.pureLog p.1 p.2])] := by
      simp [subscribe, hsub, subAppend]
    have := ih (subscribe st t (Handler.pureLog p.1 p.2))
      (hs ++ [Handler.pureLog p.1 p.2]) hstep
    simpa [subscribeAll, List.foldl_cons] using this

theorem subscribeAll_frame (t : String) (L : List (Nat × Option String)) :
    ∀ (st : SystemState),
    (subscribeAll st t L).log = st.log ∧
    (subscribeAll st t L).eventHistory = st.eventHistory ∧
    (subscribeAll st t L).clock = st.clock ∧
    (subscribeAll st t L).maxHistory = st.maxHistory := by
  induction L with
  | nil => intro st; simp [subscribeAll]
  | cons p rest ih =>
    intro st
    simpa [subscribeAll, List.foldl_cons, subscribe]
      using ih (subscribe st t (Handler.pureLog p.1 p.2))

/-- Claim C1: handlers subscribed to one topic are invoked synchronously in
subscription order; if one raises, the later ones are never invoked and the
publish call itself fails with that handler's error. -/
theorem C1_dispatch_order_and_stop (fuel : Nat) (t : String) (d : Value)
    (L : List (Nat × Option String)) :
    (publishFuel (fuel + 1) (subscribeAll initState t L) t d Option.none).1.log
      = invokedIds L ∧
    (publishFuel (fuel + 1) (subscribeAll initState t L) t d Option.none).2
      = firstOutcome L := by
  cases L with
  | nil =>
    simp [subscribeAll, publishFuel, initState, lookupSubs, invokedIds,
      firstOutcome]
  | cons p rest =>
    have hsubs : (subscribeAll initState t (p :: rest)).subscribers =
        [(t, (p :: rest).map fun p => Handler.pureLog p.1 p.2)] := by
      have hstep : (subscribe initState t (Handler.pureLog p.1 p.2)).subscribers
          = [(t, [Handler.pureLog p.1 p.2])] := by
        simp [subscribe, initState, subAppend]
      simpa [subscribeAll, List.foldl_cons]
        using subscribeAll_subscribers t rest _ _ hstep
    have hlog : (subscribeAll initState t (p :: rest)).log = [] :=
      (subscribeAll_frame t (p :: rest) initState).1
    have hlook : ∀ hs : List Handler, lookupSubs [(t, hs)] t = Option.some hs :=
      fun hs => by simp [lookupSubs]
    simp only [publishFuel, hsubs, hlook]
    rw [dispatchList_pureLog]
    simp [hlog]

/-- Claim C10: clearing all subscriptions empties the registry for every topic
and leaves the event history (and any history query) unchanged. -/
theorem C10_clear_subscribers_frame (st : SystemState) :
    (∀ topic, getEventHistory (clearSubscribers st) topic =
      getEventHistory st topic) ∧
    (clearSubscribers st).eventHistory = st.eventHistory ∧
    (∀ t, lookupSubs (clearSubscribers st).subscribers t = Option.none) :=
  ⟨fun _ => rfl, rfl, fun _ => rfl⟩

/-- Claim C8: publishing to a topic with zero subscribers returns normally and
still records the event at the end of the history buffer. -/
theorem C8_no_subscriber_publish (fuel : Nat) (st : SystemState)
    (topic : String) (d : Value) (m : Option (List (String × Value)))
    (h : lookupSubs st.subscribers topic = Option.none ∨
         lookupSubs st.subscribers topic = Option.some []) :
    (publishFuel (fuel + 1) st topic d m).2 = Outcome.ok ∧
    (publishFuel (fuel + 1) st topic d m).1.eventHistory =
      (if (st.eventHistory ++ [mkEvent topic d st.clock (m.getD [])]).length >
          st.maxHistory
       then (st.eventHistory ++ [mkEvent topic d st.clock (m.getD [])]).drop 1
       else st.eventHistory ++ [mkEvent topic d st.clock (m.getD [])]) ∧
    (st.eventHistory.length < st.maxHistory →
      (publishFuel (fuel + 1) st topic d m).1.eventHistory.getLast? =
        Option.some (mkEvent topic d st.clock (m.getD []))) := by
  rcases h with h | h <;>
    refine ⟨?_, ?_, fun hcap => ?_⟩ <;>
    simp only [publishFuel, h, dispatchList, mkEvent] <;>
    try rfl
  all_goals rw [if_neg (by simp; omega)]
  all_goals simp

/-- Witness for C8: publishing on a fresh bus (no subscribers at all). -/
theorem C8_no_subscriber_publish_witness :
    (publishFuel 1 initState "t" Value.null (Option.some [])).2 = Outcome.ok ∧
    (publishFuel 1 initState "t" Value.null
        (Option.some [])).1.eventHistory = [mkEvent "t" Value.null 0 []] ∧
    (publishFuel 1 initState "t" Value.null
        (Option.some [])).1.eventHistory.getLast? =
      Option.some (mkEvent "t" Value.null 0 []) := by
  have h := C8_no_subscriber_publish 0 initState "t" Value.null
    (Option.some []) (Or.inl rfl)
  exact ⟨h.1, by rw [h.2.1]; rfl, h.2.2 (by decide)⟩

theorem handleEvent_capOK (M : Nat) (pub : Pub)
    (hp : ∀ st t d m, capOK M st → capOK M (pub st t d m).1)
    (s : StageSpec) (ev : Event) (st : SystemState) (h : capOK M st) :
    capOK M (handleEvent pub s ev st).1 := by
  unfold handleEvent
  rcases hps : s.processFn ev.data ev.metadata with e | res <;> simp only [hps]
  · rcases hpub : pub st "pipeline.error"
        (.dict [("error", .str e), ("stage", .str s.name)])
        (Option.some ev.metadata) with ⟨st1, o1⟩
    have h1 : capOK M st1 := by
      have := hp st "pipeline.error"
        (.dict [("error", .str e), ("stage", .str s.name)])
        (Option.some ev.metadata) h
      rw [hpub] at this; exact this
    cases o1 <;> simp only [hpub] <;> exact h1
  · rcases hpub : pub st s.outputTopic res
        (Option.some (dictInsert ev.metadata "processed_by" (.str s.name)))
        with ⟨st1, o1⟩
    have h1 : capOK M st1 := by
      have := hp st s.outputTopic res
        (Option.some (dictInsert ev.metadata "processed_by" (.str s.name))) h
      rw [hpub] at this; exact this
    cases o1 with
    | ok => simp only [hpub]; exact h1
    | err e =>
      simp only [hpub]
      rcases hpub2 : pub st1 "pipeline.error"
          (.dict [("error", .str e), ("stage", .str s.name)])
          (Option.some ev.metadata) with ⟨st2, o2⟩
      have h2 : capOK M st2 := by
        have := hp st1 "pipeline.error"
          (.dict [("error", .str e), ("stage", .str s.name)])
          (Option.some ev.metadata) h1
        rw [hpub2] at this; exact this
      cases o2 <;> simp only [hpub2] <;> exact h2
    | fuelOut => simp only [hpub]; exact h1

theorem runHandler_capOK (M : Nat) (pub : Pub)
    (hp : ∀ st t d m, capOK M st → capOK M (pub st t d m).1)
    (h : Handler) (ev : Event) (st : SystemState) (hc : capOK M st) :
    capOK M (runHandler pub h ev st).1 := by
  cases h with
  | pureLog i r => exact hc
  | stage s => exact handleEvent_capOK M pub hp s ev st hc
  | execResult =>
    simp only [runHandler]
    rcases hrf : st.resultFuture with _ | f <;> simp only [hrf]
    · exact hc
    · rcases hfo : f.outcome with _ | o <;> simp only [hfo]
      · exact hc
      · exact hc
  | execError =>
    simp only [runHandler]
    rcases hrf : st.resultFuture with _ | f <;> simp only [hrf]
    · exact hc
    · rcases hfo : f.outcome with _ | o <;> simp only [hfo]
      · cases hed : ev.data <;> simp only [hed] <;> exact hc
      · exact hc

theorem dispatchList_capOK (M : Nat) (pub : Pub)
    (hp : ∀ st t d m, capOK M st → capOK M (pub st t d m).1)
    (hs : List Handler) (ev : Event) :
    ∀ (st : SystemState), capOK M st → capOK M (dispatchList pub hs ev st).1 := by
  induction hs with
  | nil => intro st hc; exact hc
  | cons h rest ih =>
    intro st hc
    have h1 := runHandler_capOK M pub hp h ev st hc
    rcases hrh : runHandler pub h ev st with ⟨st', o⟩
    rw [hrh] at h1
    cases o
    · simpa [dispatchList, hrh] using ih st' h1
    · simpa [dispatchList, hrh] using h1
    · simpa [dispatchList, hrh] using h1

theorem pubStep_capOK (M : Nat) (st : SystemState) (hc : capOK M st)
    (ev : Event) :
    capOK M { st with
              clock := st.clock + 1
              eventHistory :=
                if (st.eventHistory ++ [ev]).length > st.maxHistory
                then (st.eventHistory ++ [ev]).drop 1
                else st.eventHistory ++ [ev] } := by
  obtain ⟨hm, hl⟩ := hc
  refine ⟨hm, ?_⟩
  by_cases hlen : (st.eventHistory ++ [ev]).length > st.maxHistory
  · rw [if_pos hlen]
    simp at hlen ⊢
    omega
  · rw [if_neg hlen]
    simp at hlen ⊢
    omega

theorem publishFuel_capOK (M : Nat) : ∀ (fuel : Nat) (st : SystemState)
    (t : String) (d : Value) (m : Option (List (String × Value))),
    capOK M st → capOK M (publishFuel fuel st t d m).1 := by
  intro fuel
  induction fuel with
  | zero => intro st t d m hc; exact hc
  | succ fuel ih =>
    intro st t d m hc
    simp only [publishFuel]
    have h1 := pubStep_capOK M st hc ⟨t, d, st.clock, m.getD []⟩
    rcases hlk : lookupSubs st.subscribers t with _ | hs <;> simp only [hlk]
    · exact h1
    · exact dispatchList_capOK M (publishFuel fuel) ih hs
        ⟨t, d, st.clock, m.getD []⟩ _ h1

set_option maxRecDepth 100000 in
/-- Claim C2: the history buffer is bounded at 100 with FIFO eviction; after
publishing 150 events the buffer holds exactly events 51 through 150 in
chronological (oldest-first) order, and any publish run starting within
capacity 100 stays within it. -/
theorem C2_history_bound :
    ((pubSeq initState 150).eventHistory.map fun e => e.data) =
      (List.range' 51 100).map Value.nat ∧
    ((pubSeq initState 150).eventHistory.map fun e => e.timestamp) =
      List.range' 50 100 ∧
    (∀ (fuel : Nat) (st : SystemState) (t : String) (d : Value)
       (m : Option (List (String × Value))),
       st.maxHistory = 100 → st.eventHistory.length ≤ 100 →
       (publishFuel fuel st t d m).1.eventHistory.length ≤ 100) := by
  refine ⟨by rfl, by rfl, ?_⟩
  intro fuel st t d m h1 h2
  exact (publishFuel_capOK 100 fuel st t d m ⟨h1, h2⟩).2

/-- Witness for C2: a concrete publish within capacity stays within capacity. -/
theorem C2_history_bound_witness :
    (publishFuel 1 initState "t" Value.null Option.none).1.eventHistory.length
      ≤ 100 :=
  C2_history_bound.2.2 1 initState "t" Value.null Option.none rfl (by decide)

/-- Claim C3: a stage whose `process` raises publishes exactly one
`pipeline.error` event carrying `{error: message, stage: identity}` with the
incoming metadata unchanged, and the original failure still propagates out of
the publish call that triggered the stage. -/
theorem C3_stage_failure_dual_channel (fuel : Nat) (name inT outT msg : String)
    (d : Value) (m : List (String × Value))
    (hin : inT ≠ "pipeline.error") :
    (publishFuel (fuel + 2) (subscribe initState inT
        (Handler.stage (failingStage name inT outT msg))) inT d
        (Option.some m)).2 = Outcome.err msg ∧
    (publishFuel (fuel + 2) (subscribe initState inT
        (Handler.stage (failingStage name inT outT msg))) inT d
        (Option.some m)).1.eventHistory =
      [mkEvent inT d 0 m,
       mkEvent "pipeline.error"
         (Value.dict [("error", .str msg), ("stage", .str name)]) 1 m] ∧
    ((publishFuel (fuel + 2) (subscribe initState inT
        (Handler.stage (failingStage name inT outT msg))) inT d
        (Option.some m)).1.eventHistory.filter
        (fun e => e.topic = "pipeline.error")).length = 1 := by
  have key : publishFuel (fuel + 2) (subscribe initState inT
      (Handler.stage (failingStage name inT outT msg))) inT d (Option.some m) =
      ({ subscribers := [(inT, [Handler.stage (failingStage name inT outT msg)])]
         eventHistory := [mkEvent inT d 0 m,
           mkEvent "pipeline.error"
             (Value.dict [("error", .str msg), ("stage", .str name)]) 1 m]
         maxHistory := 100
         clock := 2
         log := []
         resultFuture := Option.none }, Outcome.err msg) := by
    simp [publishFuel, subscribe, initState, subAppend, lookupSubs,
      dispatchList, runHandler, handleEvent, failingStage, mkEvent, hin]
  rw [key]
  refine ⟨rfl, rfl, ?_⟩
  simp [mkEvent, hin]

/-- Witness for C3: the failing-ParseStage instance. -/
theorem C3_stage_failure_dual_channel_witness :
    (publishFuel 2 (subscribe initState "query.received"
        (Handler.stage (failingStage "ParseStage" "query.received"
          "query.parsed" "boom"))) "query.received" Value.null
        (Option.some [("source", Value.str "api")])).2 = Outcome.err "boom" ∧
    (publishFuel 2 (subscribe initState "query.received"
        (Handler.stage (failingStage "ParseStage" "query.received"
          "query.parsed" "boom"))) "query.received" Value.null
        (Option.some [("source", Value.str "api")])).1.eventHistory =
      [mkEvent "query.received" Value.null 0 [("source", Value.str "api")],
       mkEvent "pipeline.error"
         (Value.dict [("error", .str "boom"), ("stage", .str "ParseStage")]) 1
         [("source", Value.str "api")]] ∧
    ((publishFuel 2 (subscribe initState "query.received"
        (Handler.stage (failingStage "ParseStage" "query.received"
          "query.parsed" "boom"))) "query.received" Value.null
        (Option.some [("source", Value.str "api")])).1.eventHistory.filter
        (fun e => e.topic = "pipeline.error")).length = 1 :=
  C3_stage_failure_dual_channel 0 "ParseStage" "query.received" "query.parsed"
    "boom" Value.null [("source", Value.str "api")] (by decide)

/-- Claim C4: a stage whose `process` succeeds publishes exactly one event on
its output topic with the returned payload, metadata being a copy of the
incoming metadata with `processed_by` set (overwriting) to the stage's
identity, every other key keeping its prior value. -/
theorem C4_stage_success_wiring (fuel : Nat) (name inT outT : String)
    (pf : Value → List (String × Value) → Value) (d : Value)
    (m : List (String × Value)) (hio : outT ≠ inT) :
    (publishFuel (fuel + 2) (subscribe initState inT
        (Handler.stage (okStage name inT outT pf))) inT d
        (Option.some m)).2 = Outcome.ok ∧
    (publishFuel (fuel + 2) (subscribe initState inT
        (Handler.stage (okStage name inT outT pf))) inT d
        (Option.some m)).1.eventHistory =
      [mkEvent inT d 0 m,
       mkEvent outT (pf d m) 1 (dictInsert m "processed_by" (.str name))] ∧
    ((publishFuel (fuel + 2) (subscribe initState inT
        (Handler.stage (okStage name inT outT pf))) inT d
        (Option.some m)).1.eventHistory.filter
        (fun e => e.topic = outT)).length = 1 ∧
    dictGet (dictInsert m "processed_by" (.str name)) "processed_by" =
      Option.some (.str name) ∧
    (∀ k, k ≠ "processed_by" →
      dictGet (dictInsert m "processed_by" (.str name)) k = dictGet m k) := by
  have key : publishFuel (fuel + 2) (subscribe initState inT
      (Handler.stage (okStage name inT outT pf))) inT d (Option.some m) =
      ({ subscribers := [(inT, [Handler.stage (okStage name inT outT pf)])]
         eventHistory := [mkEvent inT d 0 m,
           mkEvent outT (pf d m) 1 (dictInsert m "processed_by" (.str name))]
         maxHistory := 100
         clock := 2
         log := []
         resultFuture := Option.none }, Outcome.ok) := by
    simp [publishFuel, subscribe, initState, subAppend, lookupSubs,
      dispatchList, runHandler, handleEvent, okStage, mkEvent, Ne.symm hio]
  rw [key]
  refine ⟨rfl, rfl, ?_, dictGet_dictInsert_same m "processed_by" (.str name),
    fun k hk => dictGet_dictInsert_ne m "processed_by" (.str name) k hk⟩
  simp [mkEvent, Ne.symm hio]

/-- Witness for C4: a concrete succeeding stage on the ParseStage wiring. -/
theorem C4_stage_success_wiring_witness :
    (publishFuel 2 (subscribe initState "query.received"
        (Handler.stage (okStage "ParseStage" "query.received" "query.parsed"
          (fun _ _ => Value.str "parsed")))) "query.received" Value.null
        (Option.some [("source", Value.str "api")])).2 = Outcome.ok ∧
    (publishFuel 2 (subscribe initState "query.received"
        (Handler.stage (okStage "ParseStage" "query.received" "query.parsed"
          (fun _ _ => Value.str "parsed")))) "query.received" Value.null
        (Option.some [("source", Value.str "api")])).1.eventHistory =
      [mkEvent "query.received" Value.null 0 [("source", Value.str "api")],
       mkEvent "query.parsed" (Value.str "parsed") 1
         (dictInsert [("source", Value.str "api")] "processed_by"
           (.str "ParseStage"))] ∧
    ((publishFuel 2 (subscribe initState "query.received"
        (Handler.stage (okStage "ParseStage" "query.received" "query.parsed"
          (fun _ _ => Value.str "parsed")))) "query.received" Value.null
        (Option.some [("source", Value.str "api")])).1.eventHistory.filter
        (fun e => e.topic = "query.parsed")).length = 1 ∧
    dictGet (dictInsert [("source", Value.str "api")] "processed_by"
        (.str "ParseStage")) "processed_by" = Option.some (.str "ParseStage") ∧
    (∀ k, k ≠ "processed_by" →
      dictGet (dictInsert [("source", Value.str "api")] "processed_by"
        (.str "ParseStage")) k = dictGet [("source", Value.str "api")] k) :=
  C4_stage_success_wiring 0 "ParseStage" "query.received" "query.parsed"
    (fun _ _ => Value.str "parsed") Value.null [("source", Value.str "api")]
    (by decide)

/-- Claim C5: a terminal-topic or error-topic event delivered while the
executor's pending-result slot is already resolved (completed, failed or
cancelled) is a no-op: the handlers leave the state unchanged and raise no
error. -/
theorem C5_resolved_slot_noop (pub : Pub) (ev : Event) (st : SystemState)
    (o : FutureOutcome)
    (h : st.resultFuture = Option.some ⟨Option.some o⟩) :
    runHandler pub Handler.execResult ev st = (st, Outcome.ok) ∧
    runHandler pub Handler.execError ev st = (st, Outcome.ok) := by
  constructor <;> simp [runHandler, h]

/-- Witness for C5: a cancelled slot is untouched by both handlers. -/
theorem C5_resolved_slot_noop_witness :
    runHandler (publishFuel 0) Handler.execResult
      (mkEvent "response.ready" Value.null 0 [])
      { initState with
        resultFuture := Option.some ⟨Option.some FutureOutcome.cancelled⟩ } =
      ({ initState with
         resultFuture := Option.some ⟨Option.some FutureOutcome.cancelled⟩ },
       Outcome.ok) ∧
    runHandler (publishFuel 0) Handler.execError
      (mkEvent "pipeline.error" Value.null 0 [])
      { initState with
        resultFuture := Option.some ⟨Option.some FutureOutcome.cancelled⟩ } =
      ({ initState with
         resultFuture := Option.some ⟨Option.some FutureOutcome.cancelled⟩ },
       Outcome.ok) :=
  ⟨(C5_resolved_slot_noop (publishFuel 0)
      (mkEvent "response.ready" Value.null 0 [])
      { initState with
        resultFuture := Option.some ⟨Option.some FutureOutcome.cancelled⟩ }
      FutureOutcome.cancelled rfl).1,
   (C5_resolved_slot_noop (publishFuel 0)
      (mkEvent "pipeline.error" Value.null 0 [])
      { initState with
        resultFuture := Option.some ⟨Option.some FutureOutcome.cancelled⟩ }
      FutureOutcome.cancelled rfl).2⟩

/-- Claim C9: a terminal-topic or error-topic event delivered before any
execute call has armed the pending-result slot (`result_future` still `None`)
makes both executor handlers do nothing and raise no error. -/
theorem C9_unarmed_slot_noop (pub : Pub) (ev : Event) (st : SystemState)
    (h : st.resultFuture = Option.none) :
    runHandler pub Handler.execResult ev st = (st, Outcome.ok) ∧
    runHandler pub Handler.execError ev st = (st, Outcome.ok) := by
  constructor <;> simp [runHandler, h]

/-- Witness for C9: the freshly constructed state has no slot and both
handlers are no-ops on it. -/
theorem C9_unarmed_slot_noop_witness :
    runHandler (publishFuel 0) Handler.execResult
      (mkEvent "response.ready" Value.null 0 []) initState =
      (initState, Outcome.ok) ∧
    runHandler (publishFuel 0) Handler.execError
      (mkEvent "pipeline.error" Value.null 0 []) initState =
      (initState, Outcome.ok) :=
  ⟨(C9_unarmed_slot_noop (publishFuel 0)
      (mkEvent "response.ready" Value.null 0 []) initState rfl).1,
   (C9_unarmed_slot_noop (publishFuel 0)
      (mkEvent "pipeline.error" Value.null 0 []) initState rfl).2⟩

/-- Claim C6: each chained stage only adds payload keys, never removing prior
ones: `ParseStage` on the executor-shaped request payload `{"question": q}`,
and `DataLoadStage` / `AnalysisStage` on any dictionary payload, publish
payloads whose key set contains every key of the consumed payload. -/
theorem C6_stages_accumulate_keys :
    (∀ (parserFn : Value → Except String (String × Value)) (q : Value)
       (d' : List (String × Value)),
       parseProcess parserFn (Value.dict [("question", q)]) =
         Except.ok (Value.dict d') →
       ∀ k ∈ dictKeys [("question", q)], k ∈ dictKeys d') ∧
    (∀ (loadDataset : String → Except String Value)
       (d d' : List (String × Value)),
       dataProcess loadDataset (Value.dict d) = Except.ok (Value.dict d') →
       ∀ k ∈ dictKeys d, k ∈ dictKeys d') ∧
    (∀ (analyzeFn : String → Value → Value → Except String Value)
       (d d' : List (String × Value)),
       analysisProcess analyzeFn (Value.dict d) = Except.ok (Value.dict d') →
       ∀ k ∈ dictKeys d, k ∈ dictKeys d') := by
  refine ⟨?_, ?_, ?_⟩
  · intro pf q d' h k hk
    rcases hpf : pf q with e | ⟨intent, params⟩ <;>
      simp [parseProcess, dictGet, hpf] at h
    subst h
    simp [dictKeys] at hk ⊢
    simp [hk]
  · intro load d d' h k hk
    rcases hag : load "agriculture" with e | ag <;>
      simp [dataProcess, hag] at h
    rcases hrf : load "rainfall" with e | rf <;> simp [hrf] at h
    subst h
    exact dictKeys_dictInsert_mem d "datasets" _ k hk
  · intro af d d' h k hk
    rcases hi : dictGet d "intent" with _ | intent <;>
      simp [analysisProcess, hi] at h
    rcases hp : dictGet d "params" with _ | params <;> simp [hp] at h
    rcases hds : dictGet d "datasets" with _ | datasets <;> simp [hds] at h
    rcases intent with si | ni | _ | di <;> simp at h
    by_cases hks : si ∈ knownIntents
    · rcases ha : af si params datasets with e | results <;>
        simp [hks, ha] at h
      subst h
      exact dictKeys_dictInsert_mem d "results" results k hk
    · simp [hks] at h

/-- Witness for C6: concrete runs of all three stage transforms preserve a
consumed key. -/
theorem C6_stages_accumulate_keys_witness :
    "question" ∈ dictKeys [("question", Value.str "hello"),
      ("intent", Value.str "i"), ("params", Value.null)] ∧
    "x" ∈ dictKeys (dictInsert [("x", Value.nat 1)] "datasets"
      (Value.dict [("agriculture", Value.null), ("rainfall", Value.null)])) ∧
    "intent" ∈ dictKeys (dictInsert [("intent",
      Value.str "district_extremes"), ("params", Value.null),
      ("datasets", Value.null)] "results" Value.null) :=
  ⟨C6_stages_accumulate_keys.1 (fun _ => Except.ok ("i", Value.null))
      (Value.str "hello") _ rfl "question" (by decide),
   C6_stages_accumulate_keys.2.1 (fun _ => Except.ok Value.null)
      [("x", Value.nat 1)] _ rfl "x" (by decide),
   C6_stages_accumulate_keys.2.2 (fun _ _ _ => Except.ok Value.null)
      [("intent", Value.str "district_extremes"), ("params", Value.null),
       ("datasets", Value.null)] _ rfl "intent" (by decide)⟩

theorem getD_append_len (l : List (List Event)) (v : List Event) :
    (l ++ [v]).getD l.length [] = v := by
  induction l with
  | nil => rfl
  | cons a rest ih => simp [List.getD]

theorem getD_append_lt (l : List (List Event)) (v : List Event) (i : Nat)
    (h : i < l.length) : (l ++ [v]).getD i [] = l.getD i [] := by
  induction l generalizing i with
  | nil => simp at h
  | cons a rest ih =>
    cases i with
    | zero => rfl
    | succ n => exact ih n (by simpa using h)

theorem getD_set_ne (l : List (List Event)) (i j : Nat) (v : List Event)
    (h : j ≠ i) : (l.set i v).getD j [] = l.getD j [] := by
  induction l generalizing i j with
  | nil => rfl
  | cons a rest ih =>
    cases i with
    | zero =>
      cases j with
      | zero => exact absurd rfl h
      | succ m => rfl
    | succ n =>
      cases j with
      | zero => rfl
      | succ m => exact ih n m (fun he => h (by omega))

/-- Claim C7 (amended): the history query returns a freshly allocated copy of
the buffered events in chronological order — filtered to the given topic when
a non-empty topic is supplied — and mutating the returned list never changes
the bus's internal buffer. -/
theorem C7_history_snapshot_no_alias (s : ListStore) (histRef : Nat)
    (topic : Option String) (h : histRef < s.cells.length) :
    storeRead (getEventHistoryRef s histRef topic).1
        (getEventHistoryRef s histRef topic).2 =
      historySnapshot (storeRead s histRef) topic ∧
    (∀ t, topic = Option.some t → t ≠ "" →
      ∀ e ∈ storeRead (getEventHistoryRef s histRef topic).1
          (getEventHistoryRef s histRef topic).2, e.topic = t) ∧
    (getEventHistoryRef s histRef topic).2 ≠ histRef ∧
    (∀ v, storeRead (storeWrite (getEventHistoryRef s histRef topic).1
        (getEventHistoryRef s histRef topic).2 v) histRef =
      storeRead s histRef) := by
  have h1 : storeRead (getEventHistoryRef s histRef topic).1
      (getEventHistoryRef s histRef topic).2 =
      historySnapshot (storeRead s histRef) topic :=
    getD_append_len s.cells (historySnapshot (storeRead s histRef) topic)
  refine ⟨h1, ?_, ?_, ?_⟩
  · intro t ht hne e he
    rw [h1] at he
    subst ht
    simp [historySnapshot, hne] at he
    exact he.2
  · show s.cells.length ≠ histRef
    omega
  · intro v
    show ((s.cells ++ [historySnapshot (storeRead s histRef) topic]).set
        s.cells.length v).getD histRef [] = s.cells.getD histRef []
    rw [getD_set_ne _ _ _ _ (by omega)]
    exact getD_append_lt s.cells _ histRef h

/-- Counterexample to C7 as stated: supplying the empty-string topic is falsy
in Python's `if topic:`, so the query returns the unfiltered history and the
snapshot can contain events of other topics. -/
theorem C7_counterexample :
    ¬ (∀ e ∈ storeRead (getEventHistoryRef exStore 0 (Option.some "")).1
        (getEventHistoryRef exStore 0 (Option.some "")).2, e.topic = "") := by
  decide

/-- Witness for C7 (amended): the concrete one-event store. -/
theorem C7_history_snapshot_no_alias_witness :
    storeRead (getEventHistoryRef exStore 0 (Option.some "a")).1
        (getEventHistoryRef exStore 0 (Option.some "a")).2 =
      historySnapshot (storeRead exStore 0) (Option.some "a") ∧
    (getEventHistoryRef exStore 0 (Option.some "a")).2 ≠ 0 ∧
    storeRead (storeWrite (getEventHistoryRef exStore 0 (Option.some "a")).1
        (getEventHistoryRef exStore 0 (Option.some "a")).2 []) 0 =
      storeRead exStore 0 :=
  ⟨(C7_history_snapshot_no_alias exStore 0 (Option.some "a") (by decide)).1,
   (C7_history_snapshot_no_alias exStore 0 (Option.some "a") (by decide)).2.2.1,
   (C7_history_snapshot_no_alias exStore 0 (Option.some "a")
      (by decide)).2.2.2 []⟩

end SamarthEvents
